import Mathlib

/-!
Verification of the cubby-score-conversion backend (src/backend/main.py).

The development shallowly embeds the conversion orchestration and
validation-scoring pipeline: the validation scorer (generate_validation_report
and the five extract functions), the mxl-archive normalization (extract_mxl),
the two engine adapters (process_pdf_with_audiveris, process_image_with_homr),
the multi-page coordinator (process_pdf_with_homr), and the request handler
(convert_pdf_to_musicxml) as an effect-trace function.

Python strings are modelled as List Char where character-level reasoning is
needed (filenames, paths) and as String elsewhere.  Python float rounding
(round(x, k)) is modelled over the rationals: the values rounded in the
program are exact multiples of 10^-k, so the binary-float detour of the
source is value-preserving and the rational model is faithful.
-/

namespace CubbyScore

/-- Python truthiness of an optional string: None and the empty string are
falsy, every other string is truthy. -/
def truthyStr (o : Option String) : Bool :=
  match o with
  | none => false
  | some s => s != ""

/-- round to one decimal place, as in round(x, 1) of the source; the argument
is always an exact multiple of 1/10 there, so the rounding mode is immaterial. -/
def round1 (q : ℚ) : ℚ := (round (q * 10) : ℤ) / 10

/-- round to two decimal places, as in round(x, 2) of the source. -/
def round2 (q : ℚ) : ℚ := (round (q * 100) : ℤ) / 100

/-- One metronome-mark element as seen by extract_tempos: optional text label
and optional numeric beats-per-minute value (int() is applied to it). -/
structure MetronomeMark where
  text : Option String
  number : Option Int
deriving DecidableEq, Repr

/-- One part of a parsed score, with the fields the scorer reads: the id,
the optional declared part name, and the clef and time-signature elements
found by the recursive traversal of the part, in traversal order. -/
structure ScorePart where
  id : String
  partName : Option String
  clefSigns : List String
  timeSigRatios : List String
deriving DecidableEq, Repr

/-- Document-level metadata object (music21 Metadata): title, composer list,
and the composer attribute read by the elif branch of extract_metadata. -/
structure ScoreMeta where
  title : Option String
  composers : List String
  composerAttr : Option String
deriving DecidableEq, Repr

/-- A parsed score as the scorer consumes it: optional metadata object,
parts, the metronome marks and generic tempo-indication texts returned by
the two recursive queries of extract_tempos, and the note and rest elements
returned by the recursive queries of extract_notes (payloads irrelevant). -/
structure Score where
  metadata : Option ScoreMeta
  parts : List ScorePart
  metronomes : List MetronomeMark
  tempoIndicationTexts : List (Option String)
  notes : List Nat
  rests : List Nat
deriving DecidableEq, Repr

structure MetadataInfo where
  title : Option String
  composer : Option String
  instruments : List String
  confidence : Nat
deriving DecidableEq, Repr

structure ClefsInfo where
  detected : Nat
  types : List String
  confidence : Nat
deriving DecidableEq, Repr

structure TimeSigsInfo where
  detected : List String
  confidence : Nat
deriving DecidableEq, Repr

structure TemposInfo where
  detected : List String
  confidence : Nat
deriving DecidableEq, Repr

structure NotesInfo where
  count : Nat
  rests : Nat
  confidence : Nat
deriving DecidableEq, Repr

/-- The validation report returned by generate_validation_report. -/
structure Report where
  metadata : MetadataInfo
  clefs : ClefsInfo
  timeSignatures : TimeSigsInfo
  tempos : TemposInfo
  notes : NotesInfo
  overallConfidence : ℚ
  processingTime : ℚ
  error : Option String
deriving DecidableEq, Repr

/-- extract_metadata of the source: title and first composer from the
metadata object, instrument names from the parts (declared name, falling
back to the part id), confidence 40/30/30 capped at 100. -/
def extract_metadata (score : Score) : MetadataInfo :=
  let title : Option String :=
    match score.metadata with
    | none => none
    | some m => m.title
  let composer : Option String :=
    match score.metadata with
    | none => none
    | some m =>
      match m.composers with
      | c :: _ => some c
      | [] => m.composerAttr
  let instruments : List String :=
    score.parts.foldl (fun acc part =>
      let part_name : String :=
        match part.partName with
        | some s => if s != "" then s else part.id
        | none => part.id
      if part_name != "" && !(acc.contains part_name) then acc ++ [part_name]
      else acc) []
  let confidence : Nat :=
    (if truthyStr title then 40 else 0) +
    (if truthyStr composer then 30 else 0) +
    (if !instruments.isEmpty then 30 else 0)
  { title := title, composer := composer, instruments := instruments,
    confidence := min confidence 100 }

/-- extract_clefs of the source: count the clef elements of every part and
collect the distinct signs; confidence 98 when any clef was seen, else 0. -/
def extract_clefs (score : Score) : ClefsInfo :=
  let clef_count : Nat := score.parts.foldl (fun n p => n + p.clefSigns.length) 0
  let clef_types : List String :=
    score.parts.foldl (fun acc p =>
      p.clefSigns.foldl (fun acc s => if acc.contains s then acc else acc ++ [s]) acc) []
  { detected := clef_count, types := clef_types,
    confidence := if clef_count > 0 then 98 else 0 }

/-- extract_time_signatures of the source: distinct ratio strings in
first-seen order; confidence 95 when any was found, else 0. -/
def extract_time_signatures (score : Score) : TimeSigsInfo :=
  let time_sigs : List String :=
    score.parts.foldl (fun acc p =>
      p.timeSigRatios.foldl (fun acc s => if acc.contains s then acc else acc ++ [s]) acc) []
  { detected := time_sigs,
    confidence := if !time_sigs.isEmpty then 95 else 0 }

/-- extract_tempos of the source: metronome marks contribute their text if
truthy, else a synthesized label from the truthy bpm number; generic
tempo indications contribute their text when not yet present.  Confidence
90 when anything was collected, else 50. -/
def extract_tempos (score : Score) : TemposInfo :=
  let tempos : List String :=
    score.metronomes.foldl (fun acc el =>
      if truthyStr el.text then acc ++ [el.text.getD ""]
      else
        match el.number with
        | some n => if n != 0 then acc ++ ["♩=" ++ toString n] else acc
        | none => acc) []
  let tempos : List String :=
    score.tempoIndicationTexts.foldl (fun acc t =>
      if truthyStr t then
        let s := t.getD ""
        if acc.contains s then acc else acc ++ [s]
      else acc) tempos
  { detected := tempos,
    confidence := if !tempos.isEmpty then 90 else 50 }

/-- extract_notes of the source: count note and rest elements; confidence by
thresholds on the note count. -/
def extract_notes (score : Score) : NotesInfo :=
  let note_count : Nat := score.notes.length
  let rest_count : Nat := score.rests.length
  let confidence : Nat :=
    if note_count > 100 then 85
    else if note_count > 50 then 80
    else if note_count > 10 then 70
    else if note_count > 0 then 60
    else 0
  { count := note_count, rests := rest_count, confidence := confidence }

/-- generate_validation_report of the source.  The first argument is the
result of converter.parse on the artifact: a score, or the message of the
raised exception.  On success the five sections are extracted and the
overall confidence is the rounded mean; on failure the minimal all-zero
report carrying the error message is returned. -/
def generate_validation_report (parsed : Except String Score) (processing_time : ℚ) :
    Report :=
  match parsed with
  | .ok score =>
    let metadata_info := extract_metadata score
    let clefs_info := extract_clefs score
    let time_sigs_info := extract_time_signatures score
    let tempos_info := extract_tempos score
    let notes_info := extract_notes score
    let confidences : List Nat :=
      [metadata_info.confidence, clefs_info.confidence, time_sigs_info.confidence,
       tempos_info.confidence, notes_info.confidence]
    let overall_confidence : ℚ := (confidences.sum : ℚ) / (confidences.length : ℚ)
    { metadata := metadata_info, clefs := clefs_info,
      timeSignatures := time_sigs_info, tempos := tempos_info,
      notes := notes_info,
      overallConfidence := round1 overall_confidence,
      processingTime := round2 processing_time,
      error := none }
  | .error e =>
    { metadata := { title := none, composer := none, instruments := [], confidence := 0 },
      clefs := { detected := 0, types := [], confidence := 0 },
      timeSignatures := { detected := [], confidence := 0 },
      tempos := { detected := [], confidence := 0 },
      notes := { count := 0, rests := 0, confidence := 0 },
      overallConfidence := 0,
      processingTime := round2 processing_time,
      error := some e }

/-! ## Path and filename helpers (Python strings as character lists) -/

/-- Python str.lower, per character (the suffixes tested are ASCII). -/
def lowerChars (s : List Char) : List Char := s.map Char.toLower

/-- Python str.endswith for a single suffix. -/
def endsWithChars (s suffix : List Char) : Bool := suffix.isSuffixOf s

/-- Python substring containment (the in operator on str). -/
def containsChars (hay needle : List Char) : Bool :=
  match hay with
  | [] => needle.isEmpty
  | _ :: t => needle.isPrefixOf hay || containsChars t needle

/-- The last path component of a relative path (pathlib Path.name). -/
def pathName (p : List Char) : List Char :=
  (p.foldl (fun acc c => if c = '/' then [] else acc ++ [c]) [])

/-! ## Archive normalization: extract_mxl -/

/-- Full path of a file extracted from the archive: the work directory, the
dedicated subdirectory mxl_extracted, then the relative path of the entry. -/
def extractedPath (workDir relPath : List Char) : List Char :=
  workDir ++ "/mxl_extracted/".toList ++ relPath

/-- extract_mxl of the source, over the list of file paths the extraction
produced (relative to the extraction subdirectory, in glob order): keep the
files with the .xml extension, drop those whose full path contains META-INF
or whose name is container.xml, and return the first survivor; none left is
a not-found error. -/
def extract_mxl (workDir : List Char) (entries : List (List Char)) :
    Except String (List Char) :=
  let xml_files := entries.filter (fun p => endsWithChars p ".xml".toList)
  let xml_files := xml_files.filter (fun p =>
    !containsChars (extractedPath workDir p) "META-INF".toList &&
    pathName p ≠ "container.xml".toList)
  match xml_files with
  | [] => .error "No XML file found in MXL archive"
  | f :: _ => .ok (extractedPath workDir f)

/-! ## Engine adapters and multi-page coordinator -/

/-- One subprocess.run call: the command line and the timeout passed. -/
structure Invocation where
  cmd : List String
  timeoutSecs : Nat
deriving DecidableEq, Repr

/-- Outcome of one subprocess.run call of the batch adapter. -/
inductive RunOutcome where
  | timeout
  | exited (returncode : Int) (stderr : String)
deriving DecidableEq, Repr

/-- The Audiveris invocation of the source, with its 300-second timeout. -/
def audiverisInvocation (audiverisPath outDir pdfPath : String) : Invocation :=
  { cmd := [audiverisPath, "-batch", "-export", "-output", outDir, pdfPath],
    timeoutSecs := 300 }

/-- process_pdf_with_audiveris of the source: configuration check first,
then one bounded subprocess run; timeout and non-zero exit are errors, and
output discovery (abstracted to its result) either yields the artifact or a
not-found error.  Returns the invocations made alongside the result. -/
def process_pdf_with_audiveris (audiverisPath pdfPath outDir : String)
    (audiverisExists : Bool) (run : RunOutcome) (discovered : Option String) :
    List Invocation × Except String String :=
  if audiverisExists then
    let inv := audiverisInvocation audiverisPath outDir pdfPath
    match run with
    | .timeout => ([inv], .error "Audiveris processing timed out (5 minutes)")
    | .exited rc stderr =>
      if rc ≠ 0 then ([inv], .error ("Audiveris processing failed: " ++ stderr))
      else
        match discovered with
        | none => ([inv], .error "No MusicXML file generated by Audiveris")
        | some f => ([inv], .ok f)
  else ([], .error ("Audiveris not found at " ++ audiverisPath))

/-- Outcome of one homr subprocess run, as the per-page and single-image
flows observe it: a timeout, some other raised exception, or completion with
the information the output discovery reads (whether the expected output file
exists, and the .musicxml files the directory glob returns). -/
inductive PageOutcome where
  | timeout
  | raised (msg : String)
  | completed (expectedProduced : Bool) (dirFiles : List String)
deriving DecidableEq, Repr

/-- A homr invocation on one input file, with its 300-second timeout. -/
def homrInvocation (inputPath : String) : Invocation :=
  { cmd := ["homr", inputPath], timeoutSecs := 300 }

/-- The page image written for page i (0-based), page_i.png. -/
def pageImage (i : Nat) : String := "page_" ++ toString i ++ ".png"

/-- The expected homr output for page i, page_i.musicxml. -/
def pageOutput (i : Nat) : String := "page_" ++ toString i ++ ".musicxml"

/-- The per-page loop of process_pdf_with_homr, from page index i with the
already collected files acc: every page is invoked; a timeout or exception
is skipped; a completed page contributes its expected output file, or
failing that the first globbed file not already collected. -/
def homrPageLoop (i : Nat) (acc : List String) :
    List PageOutcome → List String × List Invocation
  | [] => (acc, [])
  | o :: rest =>
    let inv := homrInvocation (pageImage i)
    let acc' :=
      match o with
      | .timeout => acc
      | .raised _ => acc
      | .completed true _ => acc ++ [pageOutput i]
      | .completed false dirFiles =>
        match dirFiles.filter (fun f => !acc.contains f) with
        | [] => acc
        | f :: _ => acc ++ [f]
    let r := homrPageLoop (i + 1) acc' rest
    (r.1, inv :: r.2)

/-- The combined artifact of the multi-page flow: a single page document
taken verbatim, or the merged parts of several page documents. -/
inductive HomrArtifact where
  | single (file : String)
  | merged (parts : List Nat)
deriving DecidableEq, Repr

/-- The merge loop of process_pdf_with_homr: parse each collected file and
append each of its parts to the combined score; a file that fails to parse
is skipped. -/
def mergePages (parse : String → Option (List Nat)) (files : List String) :
    List Nat :=
  files.foldl (fun combined f =>
    match parse f with
    | some ps => ps.foldl (fun c p => c ++ [p]) combined
    | none => combined) []

/-- process_pdf_with_homr of the source, given the outcome of each page and
the parse function used during the merge: run the per-page loop, then apply
the post-loop policy (no files is a fatal error, one file is the artifact
verbatim, several files are merged). -/
def process_pdf_with_homr (outs : List PageOutcome)
    (parse : String → Option (List Nat)) :
    List Invocation × Except String HomrArtifact :=
  let r := homrPageLoop 0 [] outs
  match r.1 with
  | [] => (r.2, .error "homr did not detect any musical content in the PDF")
  | [f] => (r.2, .ok (.single f))
  | fs => (r.2, .ok (.merged (mergePages parse fs)))

/-- process_image_with_homr of the source: one bounded homr run on the
copied image; a timeout or exception is a fatal error; otherwise the
expected output next to the input, or the first globbed .musicxml file, is
copied to the final artifact; nothing found is a fatal error. -/
def process_image_with_homr (imgStem : String) (o : PageOutcome) :
    List Invocation × Except String String :=
  let inv := homrInvocation (imgStem ++ ".png")
  match o with
  | .timeout => ([inv], .error "homr processing timed out (5 minutes)")
  | .raised e => ([inv], .error ("homr processing failed: " ++ e))
  | .completed true _ => ([inv], .ok (imgStem ++ ".musicxml"))
  | .completed false dirFiles =>
    match dirFiles with
    | [] => ([inv], .error "homr processing failed: homr did not produce MusicXML output")
    | _ :: _ => ([inv], .ok (imgStem ++ ".musicxml"))

/-! ## Conversion orchestrator: convert_pdf_to_musicxml -/

/-- Input-type classification of the source: the lowered filename ends in
.pdf. -/
def is_pdf (filename : List Char) : Bool :=
  endsWithChars (lowerChars filename) ".pdf".toList

/-- Input-type classification of the source: the lowered filename ends in
.png, .jpg or .jpeg. -/
def is_image (filename : List Char) : Bool :=
  endsWithChars (lowerChars filename) ".png".toList ||
  endsWithChars (lowerChars filename) ".jpg".toList ||
  endsWithChars (lowerChars filename) ".jpeg".toList

/-- An HTTPException of the source: status code and detail message. -/
structure HErr where
  status : Nat
  detail : String
deriving DecidableEq, Repr

/-- The three input validations of convert_pdf_to_musicxml, in source order:
unsupported file type, image against the PDF-only Audiveris engine, and
unrecognized engine identifier.  Returns the first rejection, if any. -/
def checkInput (filename : List Char) (engine : String) : Option HErr :=
  if !is_pdf filename && !is_image filename then
    some { status := 400, detail := "Only PDF and image files (PNG, JPG) are accepted" }
  else if engine = "audiveris" && is_image filename then
    some { status := 400, detail := "Audiveris only supports PDF files. Use homr for images." }
  else if !(engine = "audiveris" || engine = "homr") then
    some { status := 400, detail := "Invalid engine" }
  else none

/-- Filesystem effects of one conversion request, in order of occurrence:
creating the per-job workspace, saving the upload into it, copying the
artifact to the durable output directory, and deleting the workspace. -/
inductive Eff where
  | mkdirWorkspace
  | saveUpload
  | copyToOutput
  | rmtreeWorkspace
deriving DecidableEq, Repr

/-- The outcomes of the external steps of one job: saving the upload,
running the selected engine (artifact abstracted), parsing the artifact for
the validation report, and the measured elapsed time. -/
structure JobWorld where
  save : Except String Unit
  engineRun : Except String Unit
  parse : Except String Score
  elapsed : ℚ

/-- The success payload of a conversion: the JSON body of the 200 answer. -/
structure ConvertResp where
  success : Bool
  validation : Report
  engine : String
deriving DecidableEq, Repr

/-- The try-block of convert_pdf_to_musicxml, returning the filesystem
effects it performed and its outcome: save the upload, run the engine,
generate the validation report (total, never raises), copy the artifact to
the durable output.  A raising step ends the block with its error. -/
def convertBody (w : JobWorld) : List Eff × Except String Report :=
  match w.save with
  | .error e => ([], .error e)
  | .ok _ =>
    match w.engineRun with
    | .error e => ([.saveUpload], .error e)
    | .ok _ =>
      let report := generate_validation_report w.parse w.elapsed
      ([.saveUpload, .copyToOutput], .ok report)

/-- convert_pdf_to_musicxml of the source as an effect-trace function: the
three validations run before any filesystem work; once they pass, the
workspace is created, the try-block runs, and the finally-block deletes the
workspace on every path; a body error is surfaced as a 500 answer. -/
def convert_pdf_to_musicxml (filename : List Char) (engine : String)
    (w : JobWorld) : List Eff × Except HErr ConvertResp :=
  match checkInput filename engine with
  | some err => ([], .error err)
  | none =>
    let body := convertBody w
    (Eff.mkdirWorkspace :: body.1 ++ [Eff.rmtreeWorkspace],
     match body.2 with
     | .error e => .error { status := 500, detail := "Conversion failed: " ++ e }
     | .ok report => .ok { success := true, validation := report, engine := engine })

/-! ## Theorems -/

/-- The note-count confidence step function as the spec words it, for
comparison with the thresholds of extract_notes. -/
def noteConfSpec (n : Nat) : Nat :=
  if n = 0 then 0
  else if n ≤ 10 then 60
  else if n ≤ 50 then 70
  else if n ≤ 100 then 80
  else 85

/-- A score whose only content is n note elements, used to exercise the
note-count thresholds. -/
def notesOnlyScore (n : Nat) : Score :=
  { metadata := none, parts := [], metronomes := [], tempoIndicationTexts := [],
    notes := List.replicate n 0, rests := [] }

/-- Claim C2: for every note count n the notes-section confidence is exactly
the step function 0 for n = 0, 60 for 1..10, 70 for 11..50, 80 for 51..100
and 85 above 100; the counts 0, 5, 20, 60, 150 give 0, 60, 70, 80, 85; and
the confidence is monotonically non-decreasing in the note count. -/
theorem claim_C2_note_confidence :
    (∀ score : Score, (extract_notes score).confidence = noteConfSpec score.notes.length) ∧
    (∀ s t : Score, s.notes.length ≤ t.notes.length →
      (extract_notes s).confidence ≤ (extract_notes t).confidence) ∧
    (extract_notes (notesOnlyScore 0)).confidence = 0 ∧
    (extract_notes (notesOnlyScore 5)).confidence = 60 ∧
    (extract_notes (notesOnlyScore 20)).confidence = 70 ∧
    (extract_notes (notesOnlyScore 60)).confidence = 80 ∧
    (extract_notes (notesOnlyScore 150)).confidence = 85 := by
  have hstep : ∀ score : Score,
      (extract_notes score).confidence = noteConfSpec score.notes.length := by
    intro score
    simp only [extract_notes, noteConfSpec]
    split_ifs <;> omega
  refine ⟨hstep, ?_, by decide, by decide, by decide, by decide, by decide⟩
  intro s t h
  rw [hstep s, hstep t]
  simp only [noteConfSpec]
  split_ifs <;> omega

/-- Claim C2 witness: the monotonicity conjunct applied at note counts 20
and 60. -/
theorem claim_C2_note_confidence_witness :
    (extract_notes (notesOnlyScore 20)).confidence ≤
      (extract_notes (notesOnlyScore 60)).confidence :=
  claim_C2_note_confidence.2.1 (notesOnlyScore 20) (notesOnlyScore 60) (by decide)

/-- Claim C9: the metadata-section confidence is 40 for a truthy title plus
30 for a truthy composer plus 30 for a nonempty instrument list, capped at
100; consequently it only takes values in 0, 30, 40, 60, 70, 90, 100 and is
always at most 100. -/
theorem claim_C9_metadata_confidence (score : Score) :
    (extract_metadata score).confidence =
      min ((if truthyStr (extract_metadata score).title then 40 else 0) +
           (if truthyStr (extract_metadata score).composer then 30 else 0) +
           (if (extract_metadata score).instruments ≠ [] then 30 else 0)) 100 ∧
    (extract_metadata score).confidence ∈ ([0, 30, 40, 60, 70, 90, 100] : List Nat) ∧
    (extract_metadata score).confidence ≤ 100 := by
  have hconf : (extract_metadata score).confidence =
      min ((if truthyStr (extract_metadata score).title then 40 else 0) +
           (if truthyStr (extract_metadata score).composer then 30 else 0) +
           (if !(extract_metadata score).instruments.isEmpty then 30 else 0)) 100 := rfl
  have hiff : (!(extract_metadata score).instruments.isEmpty) = true ↔
      (extract_metadata score).instruments ≠ [] := by
    cases (extract_metadata score).instruments <;> simp
  have hmem : ∀ a b c : Bool,
      min ((if a then 40 else 0) + (if b then 30 else 0) + (if c then 30 else 0)) 100 ∈
        ([0, 30, 40, 60, 70, 90, 100] : List Nat) := by decide
  refine ⟨?_, ?_, ?_⟩
  · rw [hconf]
    by_cases h : (extract_metadata score).instruments = []
    · simp [h]
    · have hb := hiff.mpr h
      simp [h, hb]
  · rw [hconf]
    have := hmem (truthyStr (extract_metadata score).title)
      (truthyStr (extract_metadata score).composer)
      (!(extract_metadata score).instruments.isEmpty)
    simpa using this
  · rw [hconf]; exact Nat.min_le_right _ _

/-- Claim C9 witness: the characterization applied to a concrete score with
no metadata at all, whose metadata confidence is 0. -/
theorem claim_C9_metadata_confidence_witness :
    (extract_metadata (notesOnlyScore 0)).confidence =
      min ((if truthyStr (extract_metadata (notesOnlyScore 0)).title then 40 else 0) +
           (if truthyStr (extract_metadata (notesOnlyScore 0)).composer then 30 else 0) +
           (if (extract_metadata (notesOnlyScore 0)).instruments ≠ [] then 30 else 0)) 100 ∧
    (extract_metadata (notesOnlyScore 0)).confidence ≤ 100 :=
  ⟨(claim_C9_metadata_confidence (notesOnlyScore 0)).1,
   (claim_C9_metadata_confidence (notesOnlyScore 0)).2.2⟩

/-- Rounding to one decimal place is the identity on a mean of five natural
numbers: such a mean is an exact multiple of one tenth. -/
theorem round1_nat_div_five (n : ℕ) : round1 ((n : ℚ) / 5) = (n : ℚ) / 5 := by
  unfold round1
  have h : ((n : ℚ) / 5) * 10 = ((2 * n : ℕ) : ℚ) := by push_cast; ring
  rw [h, round_natCast]
  push_cast; ring

/-- A concrete score whose five sections score 40, 98, 95, 90 and 85: a
title but no composer and no instrument names, one clef, one time
signature, one tempo text, and 101 notes. -/
def sampleScore : Score :=
  { metadata := some { title := some "Sonata", composers := [], composerAttr := none },
    parts := [{ id := "", partName := none, clefSigns := ["G"], timeSigRatios := ["4/4"] }],
    metronomes := [{ text := some "Allegro", number := none }],
    tempoIndicationTexts := [],
    notes := List.replicate 101 0,
    rests := [] }

/-- Claim C1: for every successfully parsed document the overall confidence
of the report is the arithmetic mean of the five section confidences rounded
to one decimal place (and the rounding is exact, the mean being a multiple
of one tenth); on a concrete score with section values 40, 98, 95, 90, 85
the overall confidence is 81.6. -/
theorem claim_C1_overall_confidence :
    (∀ (score : Score) (t : ℚ),
      (generate_validation_report (.ok score) t).overallConfidence =
        round1 ((((extract_metadata score).confidence + (extract_clefs score).confidence +
          (extract_time_signatures score).confidence + (extract_tempos score).confidence +
          (extract_notes score).confidence : ℕ) : ℚ) / 5) ∧
      (generate_validation_report (.ok score) t).overallConfidence =
        (((extract_metadata score).confidence + (extract_clefs score).confidence +
          (extract_time_signatures score).confidence + (extract_tempos score).confidence +
          (extract_notes score).confidence : ℕ) : ℚ) / 5) ∧
    (extract_metadata sampleScore).confidence = 40 ∧
    (extract_clefs sampleScore).confidence = 98 ∧
    (extract_time_signatures sampleScore).confidence = 95 ∧
    (extract_tempos sampleScore).confidence = 90 ∧
    (extract_notes sampleScore).confidence = 85 ∧
    (generate_validation_report (.ok sampleScore) 0).overallConfidence = 816 / 10 := by
  have hmean : ∀ (score : Score) (t : ℚ),
      (generate_validation_report (.ok score) t).overallConfidence =
        round1 ((((extract_metadata score).confidence + (extract_clefs score).confidence +
          (extract_time_signatures score).confidence + (extract_tempos score).confidence +
          (extract_notes score).confidence : ℕ) : ℚ) / 5) := by
    intro score t
    simp only [generate_validation_report, List.sum_cons, List.sum_nil, List.length_cons,
      List.length_nil]
    norm_num
    ring_nf
  refine ⟨fun score t => ⟨hmean score t, ?_⟩, by decide, by decide, by decide, by decide,
    by decide, ?_⟩
  · rw [hmean score t, round1_nat_div_five]
  · rw [hmean sampleScore 0, round1_nat_div_five]
    norm_num [show (extract_metadata sampleScore).confidence = 40 from by decide,
      show (extract_clefs sampleScore).confidence = 98 from by decide,
      show (extract_time_signatures sampleScore).confidence = 95 from by decide,
      show (extract_tempos sampleScore).confidence = 90 from by decide,
      show (extract_notes sampleScore).confidence = 85 from by decide]

/-- The minimal report of the scorer: every section confidence 0, overall
confidence 0, the measured processing time, and the parse error message. -/
def minimalReport (e : String) (t : ℚ) : Report :=
  { metadata := { title := none, composer := none, instruments := [], confidence := 0 },
    clefs := { detected := 0, types := [], confidence := 0 },
    timeSignatures := { detected := [], confidence := 0 },
    tempos := { detected := [], confidence := 0 },
    notes := { count := 0, rests := 0, confidence := 0 },
    overallConfidence := 0,
    processingTime := round2 t,
    error := some e }

/-- Claim C7: when the artifact fails to parse during validation scoring the
scorer returns the minimal report with the five section confidences and the
overall confidence all 0, the measured time and the error message; and a job
whose engine run succeeded still completes successfully with that report,
the artifact having been copied to the durable output. -/
theorem claim_C7_scoring_degradation :
    (∀ (e : String) (t : ℚ),
      generate_validation_report (.error e) t = minimalReport e t) ∧
    (∀ (filename : List Char) (engine : String) (w : JobWorld) (e : String),
      checkInput filename engine = none → w.save = .ok () → w.engineRun = .ok () →
      w.parse = .error e →
      (convert_pdf_to_musicxml filename engine w).2 =
        .ok { success := true, validation := minimalReport e w.elapsed, engine := engine } ∧
      Eff.copyToOutput ∈ (convert_pdf_to_musicxml filename engine w).1) := by
  constructor
  · intro e t
    rfl
  · intro filename engine w e hcheck hsave hrun hparse
    simp [convert_pdf_to_musicxml, convertBody, hcheck, hsave, hrun, hparse, minimalReport,
      generate_validation_report]

/-- Claim C7 witness: a concrete job whose engine run succeeds but whose
artifact fails to parse still answers success, carrying the minimal report. -/
theorem claim_C7_scoring_degradation_witness :
    (convert_pdf_to_musicxml "a.pdf".toList "homr"
        { save := .ok (), engineRun := .ok (), parse := .error "bad xml", elapsed := 2 }).2 =
      .ok { success := true, validation := minimalReport "bad xml" 2, engine := "homr" } ∧
    Eff.copyToOutput ∈ (convert_pdf_to_musicxml "a.pdf".toList "homr"
        { save := .ok (), engineRun := .ok (), parse := .error "bad xml", elapsed := 2 }).1 :=
  claim_C7_scoring_degradation.2 "a.pdf".toList "homr"
    { save := .ok (), engineRun := .ok (), parse := .error "bad xml", elapsed := 2 }
    "bad xml" (by decide) rfl rfl rfl

/-- Claim C4: the three input validations are exactly what admits a request
(supported extension, engine compatible with the input type, recognized
engine); any rejection yields an empty effect trace, so no filesystem or
process work happens; in particular an image input against the PDF-only
Audiveris engine is rejected with no filesystem side effects. -/
theorem claim_C4_validation_first :
    (∀ (filename : List Char) (engine : String),
      checkInput filename engine = none ↔
        ((is_pdf filename = true ∨ is_image filename = true) ∧
         ¬(engine = "audiveris" ∧ is_image filename = true) ∧
         (engine = "audiveris" ∨ engine = "homr"))) ∧
    (∀ (filename : List Char) (engine : String) (w : JobWorld) (err : HErr),
      checkInput filename engine = some err →
      convert_pdf_to_musicxml filename engine w = ([], .error err)) ∧
    (∀ w : JobWorld,
      convert_pdf_to_musicxml "score.png".toList "audiveris" w =
        ([], .error ⟨400,
          "Audiveris only supports PDF files. Use homr for images."⟩)) := by
  have h2 : ∀ (filename : List Char) (engine : String) (w : JobWorld) (err : HErr),
      checkInput filename engine = some err →
      convert_pdf_to_musicxml filename engine w = ([], .error err) := by
    intro filename engine w err h
    simp [convert_pdf_to_musicxml, h]
  refine ⟨?_, h2, fun w => h2 _ _ w _ (by decide)⟩
  intro filename engine
  simp only [checkInput]
  cases hp : is_pdf filename <;> cases hi : is_image filename <;>
    by_cases he : engine = "audiveris" <;> by_cases hh : engine = "homr" <;>
      simp_all

/-- Claim C4 witness: a concrete rejected request (image input against the
PDF-only engine) produces the empty effect trace. -/
theorem claim_C4_validation_first_witness :
    convert_pdf_to_musicxml "score.png".toList "audiveris"
        { save := .ok (), engineRun := .ok (), parse := .error "x", elapsed := 0 } =
      ([], .error ⟨400,
        "Audiveris only supports PDF files. Use homr for images."⟩) :=
  claim_C4_validation_first.2.2
    { save := .ok (), engineRun := .ok (), parse := .error "x", elapsed := 0 }

/-- Claim C5: once the input validations pass, the effect trace of the job
ends with the workspace deletion on every exit path, and on a successful
response the trace is exactly workspace creation, upload save, artifact copy
to the durable output, then workspace deletion — the copy precedes the
deletion, so the artifact outlives the job. -/
theorem claim_C5_workspace_cleanup
    (filename : List Char) (engine : String) (w : JobWorld)
    (h : checkInput filename engine = none) :
    (∃ pre, (convert_pdf_to_musicxml filename engine w).1 =
      pre ++ [Eff.rmtreeWorkspace]) ∧
    (∀ resp, (convert_pdf_to_musicxml filename engine w).2 = .ok resp →
      (convert_pdf_to_musicxml filename engine w).1 =
        [Eff.mkdirWorkspace, Eff.saveUpload, Eff.copyToOutput, Eff.rmtreeWorkspace]) := by
  constructor
  · refine ⟨Eff.mkdirWorkspace :: (convertBody w).1, ?_⟩
    simp [convert_pdf_to_musicxml, h]
  · intro resp hresp
    simp only [convert_pdf_to_musicxml, h] at hresp ⊢
    cases hsave : w.save with
    | error e => simp [convertBody, hsave] at hresp
    | ok u =>
      cases hrun : w.engineRun with
      | error e => simp [convertBody, hsave, hrun] at hresp
      | ok v => simp [convertBody, hsave, hrun]

/-- Claim C5 witness: the cleanup characterization applied to a concrete
job that fails mid-processing, and to a concrete successful job. -/
theorem claim_C5_workspace_cleanup_witness :
    (∃ pre, (convert_pdf_to_musicxml "a.pdf".toList "homr"
      { save := .ok (), engineRun := .error "engine died", parse := .error "x",
        elapsed := 0 }).1 = pre ++ [Eff.rmtreeWorkspace]) ∧
    (convert_pdf_to_musicxml "a.pdf".toList "homr"
      { save := .ok (), engineRun := .ok (), parse := .error "x", elapsed := 0 }).1 =
        [Eff.mkdirWorkspace, Eff.saveUpload, Eff.copyToOutput, Eff.rmtreeWorkspace] :=
  ⟨(claim_C5_workspace_cleanup "a.pdf".toList "homr"
      { save := .ok (), engineRun := .error "engine died", parse := .error "x",
        elapsed := 0 } (by decide)).1,
   (claim_C5_workspace_cleanup "a.pdf".toList "homr"
      { save := .ok (), engineRun := .ok (), parse := .error "x", elapsed := 0 }
      (by decide)).2 _ rfl⟩

/-- Claim C10: the input-type classification lowercases the filename before
the suffix test, so any case variant of .pdf is classified as PDF and any
case variant of .png, .jpg or .jpeg as image; and the unsupported-media
rejection happens exactly when the filename has none of these suffixes
case-insensitively. -/
theorem claim_C10_case_insensitive :
    (∀ (s v : List Char), lowerChars v = ".pdf".toList → is_pdf (s ++ v) = true) ∧
    (∀ (s v : List Char), lowerChars v = ".png".toList → is_image (s ++ v) = true) ∧
    (∀ (s v : List Char), lowerChars v = ".jpg".toList → is_image (s ++ v) = true) ∧
    (∀ (s v : List Char), lowerChars v = ".jpeg".toList → is_image (s ++ v) = true) ∧
    (∀ (s : List Char) (engine : String),
      checkInput s engine =
          some ⟨400, "Only PDF and image files (PNG, JPG) are accepted"⟩ ↔
        (is_pdf s = false ∧ is_image s = false)) := by
  have key : ∀ (s v target : List Char), lowerChars v = target →
      endsWithChars (lowerChars (s ++ v)) target = true := by
    intro s v target h
    simp only [lowerChars, endsWithChars, List.map_append] at *
    rw [h]
    simp [List.isSuffixOf_iff_suffix]
  refine ⟨?_, ?_, ?_, ?_, ?_⟩
  · intro s v h
    simp only [is_pdf]
    exact key s v _ h
  · intro s v h
    simp only [is_image, Bool.or_eq_true]
    exact Or.inl (Or.inl (key s v _ h))
  · intro s v h
    simp only [is_image, Bool.or_eq_true]
    exact Or.inl (Or.inr (key s v _ h))
  · intro s v h
    simp only [is_image, Bool.or_eq_true]
    exact Or.inr (key s v _ h)
  · intro s engine
    constructor
    · intro h
      simp only [checkInput] at h
      split_ifs at h with h1 h2 h3
      · simpa using h1
      · exact absurd h (by decide)
      · exact absurd h (by decide)
    · intro hpi
      simp [checkInput, hpi.1, hpi.2]

/-- Claim C10 witness: an upper-case .PDF suffix is classified as PDF and a
mixed-case .JPeg suffix as image. -/
theorem claim_C10_case_insensitive_witness :
    is_pdf ("A".toList ++ ".PDF".toList) = true ∧
    is_image ("b".toList ++ ".JPeg".toList) = true :=
  ⟨claim_C10_case_insensitive.1 "A".toList ".PDF".toList (by decide),
   claim_C10_case_insensitive.2.2.2.1 "b".toList ".JPeg".toList (by decide)⟩

/-- The selection predicate of extract_mxl, as one test: a .xml file whose
full extracted path does not contain META-INF and whose name is not
container.xml. -/
def mxlCandidate (workDir p : List Char) : Bool :=
  (!containsChars (extractedPath workDir p) "META-INF".toList &&
    pathName p ≠ "container.xml".toList) &&
  endsWithChars p ".xml".toList

/-- The path name is insensitive to anything before the last separator. -/
theorem pathName_append_slash (a p : List Char) :
    pathName (a ++ '/' :: p) = pathName p := by
  simp [pathName, List.foldl_append]

/-- Splitting the extracted full path at the separator in front of the
relative entry path. -/
theorem extractedPath_eq (workDir p : List Char) :
    extractedPath workDir p = (workDir ++ "/mxl_extracted".toList) ++ '/' :: p := by
  have hlit : ("/mxl_extracted/".toList : List Char) =
      "/mxl_extracted".toList ++ ['/'] := rfl
  simp [extractedPath, hlit, List.append_assoc]

/-- Claim C6: extract_mxl selects the first .xml entry of the extraction
whose full path does not contain META-INF and whose name is not
container.xml (returning its path under the dedicated subdirectory), errs
when no candidate remains, and never returns a metadata file: the returned
path ends in .xml, does not contain META-INF, and is not a container.xml. -/
theorem claim_C6_extract_mxl (workDir : List Char) (entries : List (List Char)) :
    (extract_mxl workDir entries =
      match entries.filter (fun p => mxlCandidate workDir p) with
      | [] => .error "No XML file found in MXL archive"
      | f :: _ => .ok (extractedPath workDir f)) ∧
    (∀ f, extract_mxl workDir entries = .ok f →
      endsWithChars f ".xml".toList = true ∧
      containsChars f "META-INF".toList = false ∧
      pathName f ≠ "container.xml".toList) := by
  have heq : extract_mxl workDir entries =
      match entries.filter (fun p => mxlCandidate workDir p) with
      | [] => .error "No XML file found in MXL archive"
      | f :: _ => .ok (extractedPath workDir f) := by
    simp only [extract_mxl, List.filter_filter, mxlCandidate]
  refine ⟨heq, ?_⟩
  intro f hok
  rw [heq] at hok
  cases hfil : entries.filter (fun p => mxlCandidate workDir p) with
  | nil => rw [hfil] at hok; exact absurd hok (by simp)
  | cons p rest =>
    rw [hfil] at hok
    have hf : f = extractedPath workDir p := by
      simpa using hok.symm
    have hp : mxlCandidate workDir p = true := by
      have hmem : p ∈ entries.filter (fun p => mxlCandidate workDir p) := by
        rw [hfil]; exact List.mem_cons_self p rest
      exact List.of_mem_filter hmem
    simp only [mxlCandidate, Bool.and_eq_true, Bool.not_eq_true',
      decide_eq_true_eq] at hp
    subst hf
    refine ⟨?_, hp.1.1, ?_⟩
    · have hsuf : p <:+ extractedPath workDir p := by
        rw [extractedPath_eq]
        exact (List.suffix_cons '/' p).trans (List.suffix_append _ _)
      have hxml : (".xml".toList : List Char) <:+ p :=
        List.isSuffixOf_iff_suffix.mp hp.2
      simpa [endsWithChars, List.isSuffixOf_iff_suffix] using hxml.trans hsuf
    · rw [extractedPath_eq, pathName_append_slash]
      exact hp.1.2

/-- Claim C6 witness: a concrete archive holding metadata noise and one
real document; that document is selected. -/
theorem claim_C6_extract_mxl_witness :
    extract_mxl "job".toList
        ["META-INF/container.xml".toList, "container.xml".toList, "score.xml".toList] =
      .ok "job/mxl_extracted/score.xml".toList ∧
    endsWithChars "job/mxl_extracted/score.xml".toList ".xml".toList = true ∧
    containsChars "job/mxl_extracted/score.xml".toList "META-INF".toList = false ∧
    pathName "job/mxl_extracted/score.xml".toList ≠ "container.xml".toList := by
  have h := (claim_C6_extract_mxl "job".toList
    ["META-INF/container.xml".toList, "container.xml".toList, "score.xml".toList]).2
    "job/mxl_extracted/score.xml".toList rfl
  exact ⟨rfl, h.1, h.2.1, h.2.2⟩

/-- Appending the elements of a list one by one is appending the list. -/
theorem foldl_snoc_eq (l acc : List Nat) :
    l.foldl (fun c p => c ++ [p]) acc = acc ++ l := by
  induction l generalizing acc with
  | nil => simp
  | cons x xs ih => simp [ih]

/-- The merge loop concatenates, in order, the parts of exactly the files
that parse; files that fail to parse contribute nothing. -/
theorem mergePages_eq_flatten (parse : String → Option (List Nat)) (files : List String) :
    mergePages parse files = (files.filterMap parse).flatten := by
  have haux : ∀ (fs : List String) (acc : List Nat),
      fs.foldl (fun combined f =>
        match parse f with
        | some ps => ps.foldl (fun c p => c ++ [p]) combined
        | none => combined) acc = acc ++ (fs.filterMap parse).flatten := by
    intro fs
    induction fs with
    | nil => simp
    | cons f fs ih =>
      intro acc
      cases hf : parse f with
      | none => simp [hf, ih]
      | some ps =>
        simp only [List.foldl_cons, hf, List.filterMap_cons, List.flatten_cons]
        rw [foldl_snoc_eq, ih, List.append_assoc]
  simpa using haux files []

/-- Claim C3: after the per-page loop of the page-backend PDF flow, no
collected page document fails the whole job with the no-content error;
exactly one collected document is returned verbatim as the artifact with no
merge; and several collected documents are merged into the concatenation,
in page order, of the parts of those that parse, pages failing to parse
being skipped without failing the job. -/
theorem claim_C3_postloop_policy (outs : List PageOutcome)
    (parse : String → Option (List Nat)) :
    ((homrPageLoop 0 [] outs).1 = [] →
      (process_pdf_with_homr outs parse).2 =
        .error "homr did not detect any musical content in the PDF") ∧
    (∀ f, (homrPageLoop 0 [] outs).1 = [f] →
      (process_pdf_with_homr outs parse).2 = .ok (.single f)) ∧
    (2 ≤ (homrPageLoop 0 [] outs).1.length →
      (process_pdf_with_homr outs parse).2 =
        .ok (.merged (((homrPageLoop 0 [] outs).1.filterMap parse).flatten))) := by
  refine ⟨?_, ?_, ?_⟩
  · intro h
    simp [process_pdf_with_homr, h]
  · intro f h
    simp [process_pdf_with_homr, h]
  · intro h
    cases hfiles : (homrPageLoop 0 [] outs).1 with
    | nil => rw [hfiles] at h; simp at h
    | cons f rest =>
      cases rest with
      | nil => rw [hfiles] at h; simp at h
      | cons g rest2 =>
        simp only [process_pdf_with_homr, hfiles]
        rw [mergePages_eq_flatten]

/-- Claim C3 witness: the three post-loop branches at concrete page
outcomes — all pages failing, one page succeeding, and two pages
succeeding of which the second fails to parse during the merge and is
skipped. -/
theorem claim_C3_postloop_policy_witness :
    (process_pdf_with_homr [.timeout, .raised "boom"] (fun _ => some [7])).2 =
      .error "homr did not detect any musical content in the PDF" ∧
    (process_pdf_with_homr [.timeout, .completed true []] (fun _ => some [7])).2 =
      .ok (.single (pageOutput 1)) ∧
    (process_pdf_with_homr [.completed true [], .completed true []]
        (fun f => if f = pageOutput 0 then some [1, 2] else none)).2 =
      .ok (.merged [1, 2]) := by
  refine ⟨?_, ?_, ?_⟩
  · exact (claim_C3_postloop_policy [.timeout, .raised "boom"] (fun _ => some [7])).1 rfl
  · exact (claim_C3_postloop_policy [.timeout, .completed true []]
      (fun _ => some [7])).2.1 (pageOutput 1) rfl
  · have h := (claim_C3_postloop_policy [.completed true [], .completed true []]
      (fun f => if f = pageOutput 0 then some [1, 2] else none)).2.2 (by decide)
    rw [h]
    rfl

/-- Claim C8: every external-process invocation made by the three flows
carries a 300-second timeout; a timeout in the batch PDF flow or in the
single-image flow fails that job with a timeout error after exactly one
invocation (no retry); and in the multi-page per-page flow every page is
invoked exactly once whatever the outcomes, a timed-out page leaving the
collected documents unchanged while the loop continues with the next page. -/
theorem claim_C8_timeout_policy :
    (∀ (ap pdf outDir : String) (ex : Bool) (run : RunOutcome) (disc : Option String),
      ∀ inv ∈ (process_pdf_with_audiveris ap pdf outDir ex run disc).1,
        inv.timeoutSecs = 300) ∧
    (∀ (ap pdf outDir : String) (disc : Option String),
      process_pdf_with_audiveris ap pdf outDir true .timeout disc =
        ([audiverisInvocation ap outDir pdf],
         .error "Audiveris processing timed out (5 minutes)")) ∧
    (∀ (stem : String) (o : PageOutcome),
      ∀ inv ∈ (process_image_with_homr stem o).1, inv.timeoutSecs = 300) ∧
    (∀ stem : String,
      process_image_with_homr stem .timeout =
        ([homrInvocation (stem ++ ".png")],
         .error "homr processing timed out (5 minutes)")) ∧
    (∀ (i : Nat) (acc : List String) (outs : List PageOutcome),
      ∀ inv ∈ (homrPageLoop i acc outs).2, inv.timeoutSecs = 300) ∧
    (∀ (i : Nat) (acc : List String) (outs : List PageOutcome),
      ((homrPageLoop i acc outs).2).length = outs.length) ∧
    (∀ (i : Nat) (acc : List String) (rest : List PageOutcome),
      homrPageLoop i acc (.timeout :: rest) =
        ((homrPageLoop (i + 1) acc rest).1,
         homrInvocation (pageImage i) :: (homrPageLoop (i + 1) acc rest).2)) := by
  refine ⟨?_, ?_, ?_, ?_, ?_, ?_, ?_⟩
  · intro ap pdf outDir ex run disc inv hinv
    cases ex with
    | false => simp [process_pdf_with_audiveris] at hinv
    | true =>
      cases run with
      | timeout =>
        simp [process_pdf_with_audiveris] at hinv
        simp [hinv, audiverisInvocation]
      | exited rc stderr =>
        by_cases hrc : rc = 0 <;> cases disc <;>
          simp [process_pdf_with_audiveris, hrc] at hinv <;>
          simp [hinv, audiverisInvocation]
  · intro ap pdf outDir disc
    rfl
  · intro stem o inv hinv
    cases o with
    | timeout =>
      simp [process_image_with_homr] at hinv
      simp [hinv, homrInvocation]
    | raised e =>
      simp [process_image_with_homr] at hinv
      simp [hinv, homrInvocation]
    | completed expected dirFiles =>
      cases expected <;> cases dirFiles <;>
        simp [process_image_with_homr] at hinv <;>
        simp [hinv, homrInvocation]
  · intro stem
    rfl
  · intro i acc outs
    induction outs generalizing i acc with
    | nil => intro inv hinv; simp [homrPageLoop] at hinv
    | cons o rest ih =>
      intro inv hinv
      simp only [homrPageLoop, List.mem_cons] at hinv
      rcases hinv with h | h
      · simp [h, homrInvocation]
      · exact ih _ _ inv h
  · intro i acc outs
    induction outs generalizing i acc with
    | nil => rfl
    | cons o rest ih => simp [homrPageLoop, ih]
  · intro i acc rest
    rfl

/-- Claim C8 witness: the 300-second bound read off the concrete
invocations of each flow, and the per-page loop on a concrete trace with a
timed-out first page. -/
theorem claim_C8_timeout_policy_witness :
    (∀ inv ∈ (process_pdf_with_audiveris "aud" "in.pdf" "out" true .timeout none).1,
      inv.timeoutSecs = 300) ∧
    (∀ inv ∈ (process_image_with_homr "img" .timeout).1, inv.timeoutSecs = 300) ∧
    (∀ inv ∈ (homrPageLoop 0 [] [.timeout, .completed true []]).2,
      inv.timeoutSecs = 300) ∧
    ((homrPageLoop 0 [] [.timeout, .completed true []]).2).length = 2 :=
  ⟨claim_C8_timeout_policy.1 "aud" "in.pdf" "out" true .timeout none,
   claim_C8_timeout_policy.2.2.1 "img" .timeout,
   claim_C8_timeout_policy.2.2.2.2.1 0 [] [.timeout, .completed true []],
   claim_C8_timeout_policy.2.2.2.2.2.1 0 [] [.timeout, .completed true []]⟩

end CubbyScore
